import Mathlib

/-!
Verification development for the HCABackend story-mutation engine.

Texts are modelled as `List Char`.  The external `diff_match_patch` library
used by `app/models/utils.py` is modelled abstractly: a diff is a list of
`(DiffOp × List Char)` chunks, and the library's fundamental contract is that
the equal/insert chunks concatenate to the new text (`reconB`) while the
equal/delete chunks concatenate to the old text (`reconA`).  On two equal
inputs `diff_main` returns the single chunk `[(equal, text)]`, and on an
empty old text it returns `[(insert, newText)]`; those concrete outputs are
used for counterexamples.
-/

namespace HCAB

/-- A diff chunk kind, as produced by `diff_match_patch.diff_main`
(`DIFF_EQUAL`, `DIFF_INSERT`, `DIFF_DELETE`). -/
inductive DiffOp where
  | equal : DiffOp
  | insert : DiffOp
  | delete : DiffOp
deriving DecidableEq, Repr

/-- Reconstruction of the *new* text from a diff: equal and insert chunks,
in order.  This is the defining contract of `diff_main` for its second
argument. -/
def reconB : List (DiffOp × List Char) → List Char
  | [] => []
  | (DiffOp.equal, d) :: rest => d ++ reconB rest
  | (DiffOp.insert, d) :: rest => d ++ reconB rest
  | (DiffOp.delete, _) :: rest => reconB rest

/-- Reconstruction of the *old* text from a diff: equal and delete chunks,
in order. -/
def reconA : List (DiffOp × List Char) → List Char
  | [] => []
  | (DiffOp.equal, d) :: rest => d ++ reconA rest
  | (DiffOp.insert, _) :: rest => reconA rest
  | (DiffOp.delete, d) :: rest => d ++ reconA rest

/-- The opening highlight marker `<mark>` of `utils.highlight_additions`. -/
def openM : List Char := ['<', 'm', 'a', 'r', 'k', '>']

/-- The closing highlight marker `</mark>` of `utils.highlight_additions`. -/
def closeM : List Char := ['<', '/', 'm', 'a', 'r', 'k', '>']

/-- One inserted character as emitted by the loop in
`utils.highlight_additions`: whitespace is appended bare, any other char is
wrapped as `<mark>{char}</mark>`. -/
def wrapChar (c : Char) : List Char :=
  if c.isWhitespace then [c] else openM ++ c :: closeM

/-- The inner loop of `utils.highlight_additions` over one `DIFF_INSERT`
chunk: each character is emitted via `wrapChar`. -/
def wrapChars : List Char → List Char
  | [] => []
  | c :: rest => wrapChar c ++ wrapChars rest

/-- The emission loop of `utils.highlight_additions` over the diff list:
equal chunks verbatim, insert chunks character-wrapped, delete chunks
dropped. -/
def highlightFromDiffs : List (DiffOp × List Char) → List Char
  | [] => []
  | (DiffOp.equal, d) :: rest => d ++ highlightFromDiffs rest
  | (DiffOp.insert, d) :: rest => wrapChars d ++ highlightFromDiffs rest
  | (DiffOp.delete, _) :: rest => highlightFromDiffs rest

/-- `utils.highlight_additions(old_text, new_text)`, parametrised by the
diff producer `dmp` standing for `diff_main` followed by
`diff_cleanupSemantic`. -/
def highlight_additions (dmp : List Char → List Char → List (DiffOp × List Char))
    (old_text new_text : List Char) : List Char :=
  highlightFromDiffs (dmp old_text new_text)

/-- Python's `s.replace(p, "")` for a fixed nonempty pattern `p`: scan left
to right, remove each leftmost occurrence of `p`, continue after it (the
output is never rescanned). -/
def removeAll (p : List Char) : List Char → List Char
  | [] => []
  | c :: rest =>
    if p.isPrefixOf (c :: rest) ∧ 0 < p.length then
      removeAll p (rest.drop (p.length - 1))
    else
      c :: removeAll p rest
termination_by s => s.length
decreasing_by
  · simp only [List.length_cons, List.length_drop]
    omega
  · simp

/-- `utils.get_raw_text`: strip `"<mark>"` occurrences, then `"</mark>"`
occurrences (`text.replace("<mark>", "").replace("</mark>", "")`). -/
def get_raw_text (text : List Char) : List Char :=
  removeAll closeM (removeAll openM text)

theorem removeAll_nil (p : List Char) : removeAll p [] = [] := by
  rw [removeAll]

theorem removeAll_cons_pos {p : List Char} {c : Char} {rest : List Char}
    (h1 : p.isPrefixOf (c :: rest)) (h2 : 0 < p.length) :
    removeAll p (c :: rest) = removeAll p (rest.drop (p.length - 1)) := by
  rw [removeAll, if_pos ⟨h1, h2⟩]

theorem removeAll_cons_neg {p : List Char} {c : Char} {rest : List Char}
    (h : ¬ p.isPrefixOf (c :: rest)) :
    removeAll p (c :: rest) = c :: removeAll p rest := by
  rw [removeAll, if_neg (fun hc => h hc.1)]

/-- Boolean "does `p` occur as a contiguous substring of `s`". -/
def hasSub (p : List Char) : List Char → Bool
  | [] => p.isEmpty
  | c :: rest => p.isPrefixOf (c :: rest) || hasSub p rest

theorem hasSub_cons (p : List Char) (c : Char) (rest : List Char) :
    hasSub p (c :: rest) = (p.isPrefixOf (c :: rest) || hasSub p rest) := rfl

/-- If the pattern never occurs in `l`, the Python `replace` is the
identity. -/
theorem removeAll_of_hasSub_eq_false {p : List Char} :
    ∀ {l : List Char}, hasSub p l = false → removeAll p l = l := by
  intro l
  induction l with
  | nil => intro _; exact removeAll_nil p
  | cons c rest ih =>
    intro h
    rw [hasSub_cons, Bool.or_eq_false_iff] at h
    rw [removeAll_cons_neg (by simp [h.1]), ih h.2]

theorem isPrefixOf_cons_cons (a b : Char) (as bs : List Char) :
    (a :: as).isPrefixOf (b :: bs) = (a == b && as.isPrefixOf bs) := rfl

theorem bool_not_of_eq_false {b : Bool} (h : b = false) : ¬ b := by simp [h]

theorem not_openM_prefix_head (c : Char) (h : c ≠ '<') (l : List Char) :
    openM.isPrefixOf (c :: l) = false := by
  have hb : ('<' == c) = false := beq_eq_false_iff_ne.mpr (Ne.symm h)
  simp [openM, isPrefixOf_cons_cons, hb]

theorem not_openM_prefix_second (c d : Char) (h : d ≠ 'm') (l : List Char) :
    openM.isPrefixOf (c :: d :: l) = false := by
  have hb : ('m' == d) = false := beq_eq_false_iff_ne.mpr (Ne.symm h)
  simp [openM, isPrefixOf_cons_cons, hb]

theorem not_closeM_prefix_head (c : Char) (h : c ≠ '<') (l : List Char) :
    closeM.isPrefixOf (c :: l) = false := by
  have hb : ('<' == c) = false := beq_eq_false_iff_ne.mpr (Ne.symm h)
  simp [closeM, isPrefixOf_cons_cons, hb]

theorem not_closeM_prefix_second (c d : Char) (h : d ≠ '/') (l : List Char) :
    closeM.isPrefixOf (c :: d :: l) = false := by
  have hb : ('/' == d) = false := beq_eq_false_iff_ne.mpr (Ne.symm h)
  simp [closeM, isPrefixOf_cons_cons, hb]

theorem openM_isPrefixOf_iff {c : Char} {l : List Char} :
    openM.isPrefixOf (c :: l) = true ↔
      c = '<' ∧ (['m', 'a', 'r', 'k', '>'] : List Char).isPrefixOf l = true := by
  rw [show openM = '<' :: ['m', 'a', 'r', 'k', '>'] from rfl, isPrefixOf_cons_cons,
    Bool.and_eq_true, beq_iff_eq, eq_comm]

theorem closeM_isPrefixOf_iff {c : Char} {l : List Char} :
    closeM.isPrefixOf (c :: l) = true ↔
      c = '<' ∧ (['/', 'm', 'a', 'r', 'k', '>'] : List Char).isPrefixOf l = true := by
  rw [show closeM = '<' :: ['/', 'm', 'a', 'r', 'k', '>'] from rfl, isPrefixOf_cons_cons,
    Bool.and_eq_true, beq_iff_eq, eq_comm]

theorem removeAll_self_append (p : List Char) (hp : 0 < p.length) (l : List Char) :
    removeAll p (p ++ l) = removeAll p l := by
  cases p with
  | nil => simp at hp
  | cons a as =>
    rw [List.cons_append,
      removeAll_cons_pos (List.isPrefixOf_iff_prefix.mpr
        (List.cons_append a as l ▸ List.prefix_append (a :: as) l)) hp]
    congr 1
    have hl : (a :: as).length - 1 = as.length := by simp
    rw [hl, List.drop_left]

/-- The highlighted text as a function of the new text, each character
annotated with whether it came from a `DIFF_INSERT` chunk. -/
def emitAnnot : List (Char × Bool) → List Char
  | [] => []
  | (c, ins) :: rest =>
    (if ins && !c.isWhitespace then openM ++ c :: closeM else [c]) ++ emitAnnot rest

/-- The intermediate text after stripping `"<mark>"` but not yet
`"</mark>"`. -/
def emitClose : List (Char × Bool) → List Char
  | [] => []
  | (c, ins) :: rest =>
    (if ins && !c.isWhitespace then c :: closeM else [c]) ++ emitClose rest

/-- Characters of the new text, each annotated with whether its chunk was
inserted. -/
def annot : List (DiffOp × List Char) → List (Char × Bool)
  | [] => []
  | (DiffOp.equal, d) :: rest => d.map (fun c => (c, false)) ++ annot rest
  | (DiffOp.insert, d) :: rest => d.map (fun c => (c, true)) ++ annot rest
  | (DiffOp.delete, _) :: rest => annot rest

theorem emitAnnot_append (x y : List (Char × Bool)) :
    emitAnnot (x ++ y) = emitAnnot x ++ emitAnnot y := by
  induction x with
  | nil => simp [emitAnnot]
  | cons e rest ih =>
    obtain ⟨c, ins⟩ := e
    simp [emitAnnot, ih]

theorem emitAnnot_map_false (d : List Char) :
    emitAnnot (d.map (fun c => (c, false))) = d := by
  induction d with
  | nil => rfl
  | cons c rest ih => simp [emitAnnot, ih]

theorem emitAnnot_map_true (d : List Char) :
    emitAnnot (d.map (fun c => (c, true))) = wrapChars d := by
  induction d with
  | nil => rfl
  | cons c rest ih =>
    simp only [List.map_cons, emitAnnot, wrapChars, ih, wrapChar]
    by_cases hw : c.isWhitespace <;> simp [hw]

theorem highlightFromDiffs_eq_emitAnnot (ds : List (DiffOp × List Char)) :
    highlightFromDiffs ds = emitAnnot (annot ds) := by
  induction ds with
  | nil => rfl
  | cons e rest ih =>
    obtain ⟨op, d⟩ := e
    cases op <;>
      simp [highlightFromDiffs, annot, emitAnnot_append, emitAnnot_map_false,
        emitAnnot_map_true, ih]

theorem map_fst_annot (ds : List (DiffOp × List Char)) :
    (annot ds).map Prod.fst = reconB ds := by
  induction ds with
  | nil => rfl
  | cons e rest ih =>
    obtain ⟨op, d⟩ := e
    have hm : ∀ (b : Bool), List.map (Prod.fst ∘ fun c => (c, b)) d = d := by
      intro b
      induction d with
      | nil => rfl
      | cons c cs ihc => simpa using ihc
    cases op <;> simp [annot, reconB, ih, hm]

theorem prefix_emitAnnot_of_no_lt :
    ∀ (an : List (Char × Bool)) (s : List Char),
      (∀ c ∈ s, c ≠ '<') → s.isPrefixOf (emitAnnot an) = true →
      s.isPrefixOf (an.map Prod.fst) = true := by
  intro an
  induction an with
  | nil =>
    intro s hs h
    cases s with
    | nil => rfl
    | cons x s' => simp [emitAnnot, List.isPrefixOf] at h
  | cons e rest ih =>
    obtain ⟨c, ins⟩ := e
    intro s hs h
    cases s with
    | nil => rfl
    | cons x s' =>
      simp only [emitAnnot] at h
      by_cases hw : (ins && !c.isWhitespace) = true
      · rw [if_pos hw] at h
        simp only [openM, List.cons_append, isPrefixOf_cons_cons, Bool.and_eq_true,
          beq_iff_eq] at h
        exact absurd h.1 (hs x (List.mem_cons_self x s'))
      · rw [if_neg hw, List.singleton_append, isPrefixOf_cons_cons,
          Bool.and_eq_true] at h
        rw [List.map_cons, isPrefixOf_cons_cons, Bool.and_eq_true]
        exact ⟨h.1, ih s' (fun d hd => hs d (List.mem_cons_of_mem x hd)) h.2⟩

theorem prefix_emitClose_of_no_lt :
    ∀ (an : List (Char × Bool)) (s : List Char),
      (∀ c ∈ s, c ≠ '<') → s.isPrefixOf (emitClose an) = true →
      s.isPrefixOf (an.map Prod.fst) = true := by
  intro an
  induction an with
  | nil =>
    intro s hs h
    cases s with
    | nil => rfl
    | cons x s' => simp [emitClose, List.isPrefixOf] at h
  | cons e rest ih =>
    obtain ⟨c, ins⟩ := e
    intro s hs h
    cases s with
    | nil => rfl
    | cons x s' =>
      simp only [emitClose] at h
      rw [List.map_cons, isPrefixOf_cons_cons, Bool.and_eq_true]
      by_cases hw : (ins && !c.isWhitespace) = true
      · rw [if_pos hw, List.cons_append, isPrefixOf_cons_cons, Bool.and_eq_true] at h
        refine ⟨h.1, ?_⟩
        cases s' with
        | nil => exact List.isPrefixOf_iff_prefix.mpr List.nil_prefix
        | cons y s'' =>
          exfalso
          simp only [show closeM = '<' :: ['/', 'm', 'a', 'r', 'k', '>'] from rfl,
            List.cons_append, isPrefixOf_cons_cons, Bool.and_eq_true, beq_iff_eq] at h
          exact hs y (List.mem_cons_of_mem x (List.mem_cons_self y s'')) h.2.1
      · rw [if_neg hw, List.singleton_append, isPrefixOf_cons_cons,
          Bool.and_eq_true] at h
        exact ⟨h.1, ih s' (fun d hd => hs d (List.mem_cons_of_mem x hd)) h.2⟩

/-- Stripping `"<mark>"` from the highlighted text removes exactly the
opening wrappers, provided the raw text never contains `"<mark>"`
itself. -/
theorem removeOpen_emitAnnot :
    ∀ (an : List (Char × Bool)),
      hasSub openM (an.map Prod.fst) = false →
      removeAll openM (emitAnnot an) = emitClose an := by
  intro an
  induction an with
  | nil => intro _; exact removeAll_nil openM
  | cons e rest ih =>
    obtain ⟨c, ins⟩ := e
    intro h
    have hnp : openM.isPrefixOf (c :: List.map Prod.fst rest) = false :=
      (Bool.or_eq_false_iff.mp h).1
    have hrest : hasSub openM (List.map Prod.fst rest) = false :=
      (Bool.or_eq_false_iff.mp h).2
    by_cases hw : (ins && !c.isWhitespace) = true
    · show removeAll openM ((if ins && !c.isWhitespace then openM ++ c :: closeM
        else [c]) ++ emitAnnot rest) = _
      rw [if_pos hw, List.append_assoc,
        removeAll_self_append openM (by decide) (c :: closeM ++ emitAnnot rest)]
      show removeAll openM
        (c :: '<' :: '/' :: 'm' :: 'a' :: 'r' :: 'k' :: '>' :: emitAnnot rest) = _
      rw [removeAll_cons_neg
          (bool_not_of_eq_false (not_openM_prefix_second c '<' (by decide) _)),
        removeAll_cons_neg
          (bool_not_of_eq_false (not_openM_prefix_second '<' '/' (by decide) _)),
        removeAll_cons_neg (bool_not_of_eq_false (not_openM_prefix_head '/' (by decide) _)),
        removeAll_cons_neg (bool_not_of_eq_false (not_openM_prefix_head 'm' (by decide) _)),
        removeAll_cons_neg (bool_not_of_eq_false (not_openM_prefix_head 'a' (by decide) _)),
        removeAll_cons_neg (bool_not_of_eq_false (not_openM_prefix_head 'r' (by decide) _)),
        removeAll_cons_neg (bool_not_of_eq_false (not_openM_prefix_head 'k' (by decide) _)),
        removeAll_cons_neg (bool_not_of_eq_false (not_openM_prefix_head '>' (by decide) _)),
        ih hrest]
      show _ = (if ins && !c.isWhitespace then c :: closeM else [c]) ++ emitClose rest
      rw [if_pos hw]
      rfl
    · show removeAll openM ((if ins && !c.isWhitespace then openM ++ c :: closeM
        else [c]) ++ emitAnnot rest) = _
      rw [if_neg hw, List.singleton_append]
      have hpre : openM.isPrefixOf (c :: emitAnnot rest) = false := by
        cases hv : openM.isPrefixOf (c :: emitAnnot rest) with
        | false => rfl
        | true =>
          exfalso
          obtain ⟨hc, htail⟩ := openM_isPrefixOf_iff.mp hv
          have hraw := prefix_emitAnnot_of_no_lt rest ['m', 'a', 'r', 'k', '>']
            (by decide) htail
          have htr : openM.isPrefixOf (c :: List.map Prod.fst rest) = true := by
            rw [openM_isPrefixOf_iff]
            exact ⟨hc, hraw⟩
          rw [htr] at hnp
          exact Bool.true_eq_false.mp hnp
      rw [removeAll_cons_neg (bool_not_of_eq_false hpre), ih hrest]
      show _ = (if ins && !c.isWhitespace then c :: closeM else [c]) ++ emitClose rest
      rw [if_neg hw]
      rfl

/-- Stripping `"</mark>"` from the intermediate text recovers the raw
text, provided the raw text never contains `"</mark>"` itself. -/
theorem removeClose_emitClose :
    ∀ (an : List (Char × Bool)),
      hasSub closeM (an.map Prod.fst) = false →
      removeAll closeM (emitClose an) = an.map Prod.fst := by
  intro an
  induction an with
  | nil => intro _; exact removeAll_nil closeM
  | cons e rest ih =>
    obtain ⟨c, ins⟩ := e
    intro h
    have hnp : closeM.isPrefixOf (c :: List.map Prod.fst rest) = false :=
      (Bool.or_eq_false_iff.mp h).1
    have hrest : hasSub closeM (List.map Prod.fst rest) = false :=
      (Bool.or_eq_false_iff.mp h).2
    by_cases hw : (ins && !c.isWhitespace) = true
    · show removeAll closeM ((if ins && !c.isWhitespace then c :: closeM
        else [c]) ++ emitClose rest) = _
      rw [if_pos hw, List.cons_append]
      show removeAll closeM
        (c :: '<' :: '/' :: 'm' :: 'a' :: 'r' :: 'k' :: '>' :: emitClose rest) = _
      rw [removeAll_cons_neg
        (bool_not_of_eq_false (not_closeM_prefix_second c '<' (by decide) _))]
      show c :: removeAll closeM (closeM ++ emitClose rest) = _
      rw [removeAll_self_append closeM (by decide) (emitClose rest), ih hrest]
      rfl
    · show removeAll closeM ((if ins && !c.isWhitespace then c :: closeM
        else [c]) ++ emitClose rest) = _
      rw [if_neg hw, List.singleton_append]
      have hpre : closeM.isPrefixOf (c :: emitClose rest) = false := by
        cases hv : closeM.isPrefixOf (c :: emitClose rest) with
        | false => rfl
        | true =>
          exfalso
          obtain ⟨hc, htail⟩ := closeM_isPrefixOf_iff.mp hv
          have hraw := prefix_emitClose_of_no_lt rest ['/', 'm', 'a', 'r', 'k', '>']
            (by decide) htail
          have htr : closeM.isPrefixOf (c :: List.map Prod.fst rest) = true := by
            rw [closeM_isPrefixOf_iff]
            exact ⟨hc, hraw⟩
          rw [htr] at hnp
          exact Bool.true_eq_false.mp hnp
      rw [removeAll_cons_neg (bool_not_of_eq_false hpre), ih hrest]
      rfl

/-- C1 (amended): for every raw text pair `(a, b)` and every diff of the
pair (any chunk list whose equal/insert parts reconstruct `b`, the contract
of `diff_match_patch.diff_main` + `diff_cleanupSemantic`), if `b` contains
neither `"<mark>"` nor `"</mark>"` as a substring then stripping the
highlight markers from `highlight_additions(a, b)` reproduces `b`
character for character.  (The unamended claim fails when `b` itself
contains a literal marker substring; see the counterexample.) -/
theorem highlight_raw_roundtrip
    (dmp : List Char → List Char → List (DiffOp × List Char)) (a b : List Char)
    (hrecon : reconB (dmp a b) = b)
    (hopen : hasSub openM b = false) (hclose : hasSub closeM b = false) :
    get_raw_text (highlight_additions dmp a b) = b := by
  unfold highlight_additions get_raw_text
  rw [highlightFromDiffs_eq_emitAnnot]
  have hb : (annot (dmp a b)).map Prod.fst = b := by rw [map_fst_annot, hrecon]
  rw [removeOpen_emitAnnot _ (by rw [hb]; exact hopen),
    removeClose_emitClose _ (by rw [hb]; exact hclose), hb]

/-- C1 counterexample: take `a = b = "<mark>"`.  On equal inputs
`diff_main` returns the single chunk `[(DIFF_EQUAL, a)]`, whose equal and
delete parts reconstruct `a` and whose equal and insert parts reconstruct
`b`; the highlighted text is then `"<mark>"` verbatim, and
`get_raw_text` strips it to `""` ≠ `b`. -/
theorem highlight_raw_roundtrip_cex :
    reconA [(DiffOp.equal, openM)] = openM ∧
    reconB [(DiffOp.equal, openM)] = openM ∧
    get_raw_text (highlightFromDiffs [(DiffOp.equal, openM)]) ≠ openM := by
  refine ⟨by decide, by decide, ?_⟩
  have h1 : highlightFromDiffs [(DiffOp.equal, openM)] = openM := by decide
  have h2 : removeAll openM openM = [] := by
    show removeAll openM ('<' :: ['m', 'a', 'r', 'k', '>']) = []
    rw [removeAll_cons_pos (by decide) (by decide)]
    show removeAll openM [] = []
    exact removeAll_nil openM
  rw [h1]
  unfold get_raw_text
  rw [h2, removeAll_nil]
  decide

/-- Witness for `highlight_raw_roundtrip` at `a = "a"`, `b = "ab"` with the
diff `[(equal, "a"), (insert, "b")]`. -/
theorem highlight_raw_roundtrip_witness :
    reconB [(DiffOp.equal, ['a']), (DiffOp.insert, ['b'])] = ['a', 'b'] ∧
    hasSub openM ['a', 'b'] = false ∧ hasSub closeM ['a', 'b'] = false ∧
    get_raw_text (highlight_additions
      (fun _ _ => [(DiffOp.equal, ['a']), (DiffOp.insert, ['b'])]) ['a'] ['a', 'b']) =
      ['a', 'b'] :=
  ⟨by decide, by decide, by decide,
    highlight_raw_roundtrip _ ['a'] ['a', 'b'] (by decide) (by decide) (by decide)⟩

/-- `Story.set_formatted_text` at the text level: strip markers from the
current text and from the updated text; when the current raw text is
non-empty (Python string truthiness) re-highlight the update against it,
otherwise store the stripped update as is. -/
def set_formatted_text (dmp : List Char → List Char → List (DiffOp × List Char))
    (currentText updated_text : List Char) : List Char :=
  if get_raw_text currentText = [] then get_raw_text updated_text
  else highlight_additions dmp (get_raw_text currentText) (get_raw_text updated_text)

/-- C2 (amended): the first write of a story's text is emitted unmarked
because `Story.set_formatted_text` skips highlighting when the previous
raw text is empty: for every marker-free new text `b` it stores `b`
unchanged, with no highlight markers.  (`highlight_additions("", b)`
itself does emit markers — see the counterexample — the unmarked first
write comes from the `set_formatted_text` branch.) -/
theorem set_formatted_text_empty_raw
    (dmp : List Char → List Char → List (DiffOp × List Char))
    (currentText b : List Char)
    (hcur : get_raw_text currentText = [])
    (hopen : hasSub openM b = false) (hclose : hasSub closeM b = false) :
    set_formatted_text dmp currentText b = b ∧
    hasSub openM (set_formatted_text dmp currentText b) = false ∧
    hasSub closeM (set_formatted_text dmp currentText b) = false := by
  have hb : get_raw_text b = b := by
    unfold get_raw_text
    rw [removeAll_of_hasSub_eq_false hopen, removeAll_of_hasSub_eq_false hclose]
  have hmain : set_formatted_text dmp currentText b = b := by
    unfold set_formatted_text
    rw [hcur, if_pos rfl, hb]
  exact ⟨hmain, by rw [hmain]; exact hopen, by rw [hmain]; exact hclose⟩

/-- C2 counterexample: against an empty previous text, `diff_main`
returns the single chunk `[(DIFF_INSERT, b)]` (its empty-first-text fast
path); for `b = "x"` the emitted text does contain the `"<mark>"`
marker, contradicting the claim that `highlight_additions("", b)` is
marker-free. -/
theorem highlight_empty_prev_marks_cex :
    reconA [(DiffOp.insert, ['x'])] = [] ∧
    reconB [(DiffOp.insert, ['x'])] = ['x'] ∧
    hasSub openM (highlightFromDiffs [(DiffOp.insert, ['x'])]) = true ∧
    hasSub closeM (highlightFromDiffs [(DiffOp.insert, ['x'])]) = true := by
  refine ⟨by decide, by decide, by decide, by decide⟩

/-- Witness for `set_formatted_text_empty_raw` with empty current text and
`b = "hi"`. -/
theorem set_formatted_text_empty_raw_witness :
    get_raw_text [] = [] ∧
    hasSub openM ['h', 'i'] = false ∧ hasSub closeM ['h', 'i'] = false ∧
    set_formatted_text (fun _ _ => []) [] ['h', 'i'] = ['h', 'i'] := by
  have h0 : get_raw_text [] = [] := by
    unfold get_raw_text
    rw [removeAll_nil, removeAll_nil]
  exact ⟨h0, by decide, by decide,
    (set_formatted_text_empty_raw (fun _ _ => []) [] ['h', 'i'] h0
      (by decide) (by decide)).1⟩

/-! ## Story model (`app/models/structures.py`, `app/routers/items.py`)

Timestamps (`lastEdited`) and the file system writes under `/etc/images`
and `/etc/audio` are elided; everything else (counters, ids, urls, text,
state, error propagation and the partial mutations an exception leaves
behind) is modelled.  Python exceptions are values of `PyErr`; a story
method returns the (possibly partially mutated) story together with
`some err` when it raises. -/

/-- The Python exceptions the modelled code can raise.  `osError` stands
for `PIL.UnidentifiedImageError` (a subclass of `OSError`, *not* of
`ValueError`); `binascii.Error` from `b64decode` *is* a `ValueError`
subclass and is modelled as `valueError`. -/
inductive PyErr where
  | keyError : String → PyErr
  | valueError : String → PyErr
  | typeError : PyErr
  | indexError : PyErr
  | attributeError : PyErr
  | unknownOperation : String → PyErr
  | externalServiceFailure : PyErr
  | osError : PyErr
deriving DecidableEq, Repr

/-- Whether an exception is caught by an `except ValueError` clause
(`ValueError` and its subclass `binascii.Error`; `OSError` is not). -/
def isValueError : PyErr → Bool
  | PyErr.valueError _ => true
  | _ => false

/-- `schemas.StoryState`. -/
inductive StoryState where
  | pending : StoryState
  | completed : StoryState
  | error : StoryState
deriving DecidableEq, Repr

/-- `schemas.AchievementState`. -/
inductive AchievementState where
  | locked : AchievementState
  | in_progress : AchievementState
  | completed : AchievementState
deriving DecidableEq, Repr

/-- An `images` row.  `ordinal` records the image ordinal embedded in
`imageId` (`img_{storyId}_{ordinal}`). -/
structure ImageM where
  imageId : String
  url : String
  alt : String := "no title sorry"
  ordinal : Nat
deriving DecidableEq, Repr

/-- A `stories` row, with the column defaults of `structures.Story`. -/
structure StoryM where
  storyId : String
  name : String
  userId : String
  text : List Char := []
  state : StoryState := StoryState.completed
  image_counter : Nat := 0
  images : List ImageM := []
  audio_counter : Nat := 0
  audio : Option String := none
  regenerateImage : Bool := true
deriving Repr

/-- Python `str.lower` (character-wise). -/
def pyLower (s : List Char) : List Char := s.map Char.toLower

/-- Python `str.strip`: drop leading and trailing whitespace. -/
def pyStrip (s : List Char) : List Char :=
  ((s.dropWhile Char.isWhitespace).reverse.dropWhile Char.isWhitespace).reverse

/-- Python regex `\w` (ASCII approximation: alphanumeric or underscore). -/
def isWordChar (c : Char) : Bool := c.isAlphanum || c = '_'

/-- Base64 alphabet including padding, as accepted by
`base64.b64decode` (non-alphabet characters are discarded before
decoding). -/
def isB64Char (c : Char) : Bool :=
  c.isAlphanum || c = '+' || c = '/' || c = '='

/-- Approximation of `base64.b64decode` failure: after discarding
non-alphabet characters, the remaining length must be a multiple of 4. -/
def b64decodable (data : List Char) : Bool :=
  (data.filter isB64Char).length % 4 == 0

/-- The regex `data:image/(?P<ext>\w+);base64,(?P<data>.+)` of
`Story.upload_image`, matched with `re.match` (anchored at the start,
`.` not matching newline, greedy groups).  Returns `(ext, data)` on a
match. -/
def parseDataURI (s : List Char) : Option (List Char × List Char) :=
  if ("data:image/".toList).isPrefixOf s then
    let rest := s.drop 11
    let ext := rest.takeWhile isWordChar
    let rest2 := rest.drop ext.length
    if ext ≠ [] ∧ (";base64,".toList).isPrefixOf rest2 then
      let data := (rest2.drop 8).takeWhile (fun c => c ≠ '\n')
      if data ≠ [] then some (ext, data) else none
    else none
  else none

/-- `Story.upload_image`.  The image counter is incremented *before* any
validation, so a failed upload still consumes the ordinal; on success a
record with id `img_{storyId}_{counter}` and the retrieval url is
appended.  For a `jpeg`/`jpg` extension the decoded bytes are re-encoded
through `PIL_Image.open` — which raises `UnidentifiedImageError` (an
`OSError`) when the bytes are not a decodable image; whether PIL can
identify the decoded bytes is the oracle `pil` over the base64 payload.
The `png` branch writes the bytes as-is, with no PIL validation.  (The
file writes themselves are elided.) -/
def StoryM.upload_image (pil : List Char → Bool) (s : StoryM) (image_binary : String) :
    StoryM × Option PyErr :=
  let s := { s with image_counter := s.image_counter + 1 }
  let image_id := "img_" ++ s.storyId ++ "_" ++ toString s.image_counter
  match parseDataURI image_binary.toList with
  | none => (s, some (PyErr.valueError "Invalid image binary format"))
  | some (ext, data) =>
    let file_extension := pyLower ext
    if file_extension = "jpeg".toList ∨ file_extension = "jpg".toList ∨
        file_extension = "png".toList then
      if b64decodable data then
        if file_extension = "png".toList ∨ pil data = true then
          let image_url :=
            "http://localhost:8080/images/" ++ s.userId ++ "/" ++ s.storyId ++ "/" ++ image_id
          ({ s with images := s.images ++
              [{ imageId := image_id, url := image_url, ordinal := s.image_counter }] }, none)
        else (s, some PyErr.osError)
      else (s, some (PyErr.valueError "binascii"))
    else (s, some (PyErr.valueError "Unsupported image format"))

/-- `structures.Operation`. -/
inductive Operation where
  | NO_CHANGE : Operation
  | SKETCH_FROM_SCRATCH : Operation
  | SKETCH_ON_IMAGE : Operation
deriving DecidableEq, Repr

/-- `Operation.parse_operation`: case-insensitive, trimmed dispatch on the
discriminator; unknown strings raise. -/
def parse_operation (operation : String) : Except PyErr Operation :=
  let key := pyStrip (pyLower operation.toList)
  if key = "nochange".toList then Except.ok Operation.NO_CHANGE
  else if key = "sketchfromscratch".toList then Except.ok Operation.SKETCH_FROM_SCRATCH
  else if key = "sketchonimage".toList then Except.ok Operation.SKETCH_ON_IMAGE
  else Except.error (PyErr.unknownOperation operation)

/-- The untyped operation dict consumed by
`ImageOperation.parse_image_operation`; a `none` field stands for a
missing key (Python `KeyError` on access). -/
structure OpDict where
  type : String
  imageId : Option String := none
  canvasData : Option String := none
  alt : Option String := none
deriving DecidableEq, Repr

/-- `structures.ImageOperation` after parsing. -/
structure ImageOperationP where
  operation : Operation
  image_id : Option String := none
  canvas_data : Option String := none
  alt : Option String := none
deriving DecidableEq, Repr

/-- Dict access `d[key]`: `KeyError` when absent. -/
def dictGet (v : Option String) (key : String) : Except PyErr String :=
  match v with
  | none => Except.error (PyErr.keyError key)
  | some x => Except.ok x

/-- `ImageOperation.parse_image_operation`: parse the discriminator, then
read the variant-specific required fields. -/
def parse_image_operation (d : OpDict) : Except PyErr ImageOperationP := do
  let operation ← parse_operation d.type
  match operation with
  | Operation.NO_CHANGE => do
    let img ← dictGet d.imageId "imageId"
    pure { operation, image_id := some img }
  | Operation.SKETCH_FROM_SCRATCH => do
    let cd ← dictGet d.canvasData "canvasData"
    pure { operation, canvas_data := some cd }
  | Operation.SKETCH_ON_IMAGE => do
    let img ← dictGet d.imageId "imageId"
    let cd ← dictGet d.canvasData "canvasData"
    pure { operation, image_id := some img, canvas_data := some cd }

/-- The list comprehension in `Story.update_from_image_operations`: parse
every operation, left to right, before executing any; the first failure
aborts the whole batch. -/
def parseAllOps : List OpDict → Except PyErr (List ImageOperationP)
  | [] => Except.ok []
  | d :: rest => do
    let p ← parse_image_operation d
    let ps ← parseAllOps rest
    pure (p :: ps)

/-- The Generative Media Client (`openai_client`), as oracles: each call
receives the story (standing for the image paths, seed text and settings
the source passes) and either returns a result or fails. -/
structure GenClient where
  imageToStory : StoryM → Except PyErr (List Char)
  modifyImage : StoryM → Except PyErr String
  sketchOnImage : StoryM → Except PyErr String
  imageToTitle : StoryM → Except PyErr String
  storyToImage : StoryM → Except PyErr String

/-- `Story.set_raw_text` (timestamp elided). -/
def StoryM.set_raw_text (s : StoryM) (updated_text : List Char) : StoryM :=
  { s with text := get_raw_text updated_text }

/-- `Story.set_formatted_text` as a story update (timestamp elided). -/
def StoryM.set_formatted_text (dmp : List Char → List Char → List (DiffOp × List Char))
    (s : StoryM) (updated_text : List Char) : StoryM :=
  { s with text := HCAB.set_formatted_text dmp s.text updated_text }

/-- `Story.generate_no_change_text_string`: reads `images[-1]`
(`IndexError` on an empty history) and calls image→text. -/
def generate_no_change_text (gen : GenClient) (s : StoryM) : Except PyErr (List Char) :=
  match s.images.getLast? with
  | none => Except.error PyErr.indexError
  | some _ => gen.imageToStory s

/-- `Story.execute_image_operation`: one operation of the state machine,
per variant.  Exceptions propagate with the partial mutations already
applied to the story. -/
def execute_image_operation (dmp : List Char → List Char → List (DiffOp × List Char))
    (gen : GenClient) (pil : List Char → Bool) (s : StoryM) (op : ImageOperationP) :
    StoryM × Option PyErr :=
  match op.operation with
  | Operation.NO_CHANGE =>
    (match generate_no_change_text gen s with
    | Except.error e => (s, some e)
    | Except.ok new_text =>
      ({ StoryM.set_formatted_text dmp s new_text with audio := none }, none))
  | Operation.SKETCH_FROM_SCRATCH =>
    (match op.canvas_data with
    | none => (s, some PyErr.typeError)
    | some cd =>
      match s.upload_image pil cd with
      | (s1, some e) => (s1, some e)
      | (s1, none) =>
        let step2 : StoryM × Option PyErr :=
          if s1.regenerateImage then
            match s1.images.getLast? with
            | none => (s1, some PyErr.indexError)
            | some _ =>
              match gen.modifyImage s1 with
              | Except.error e => (s1, some e)
              | Except.ok img => s1.upload_image pil img
          else (s1, none)
        match step2 with
        | (s2, some e) => (s2, some e)
        | (s2, none) =>
          match generate_no_change_text gen s2 with
          | Except.error e => (s2, some e)
          | Except.ok new_text =>
            ({ StoryM.set_formatted_text dmp s2 new_text with audio := none }, none))
  | Operation.SKETCH_ON_IMAGE =>
    (match op.canvas_data with
    | none => (s, some PyErr.typeError)
    | some cd =>
      match s.upload_image pil cd with
      | (s1, some e) => (s1, some e)
      | (s1, none) =>
        let step2 : StoryM × Option PyErr :=
          if s1.regenerateImage then
            if 2 ≤ s1.images.length then
              match gen.sketchOnImage s1 with
              | Except.error e => (s1, some e)
              | Except.ok img => s1.upload_image pil img
            else (s1, some PyErr.indexError)
          else (s1, none)
        match step2 with
        | (s2, some e) => (s2, some e)
        | (s2, none) =>
          match generate_no_change_text gen s2 with
          | Except.error e => (s2, some e)
          | Except.ok new_text =>
            ({ StoryM.set_formatted_text dmp s2 new_text with audio := none }, none))

/-- `Story.execute_image_operations`: strictly sequential execution; the
first exception aborts the rest of the batch. -/
def execute_image_operations (dmp : List Char → List Char → List (DiffOp × List Char))
    (gen : GenClient) (pil : List Char → Bool) (s : StoryM) :
    List ImageOperationP → StoryM × Option PyErr
  | [] => (s, none)
  | op :: rest =>
    match execute_image_operation dmp gen pil s op with
    | (s', none) => execute_image_operations dmp gen pil s' rest
    | (s', some e) => (s', some e)

/-- `Story.update_story_name`: auto-title only while the name is still
the placeholder `"New Story"`; reads `images[-1]`. -/
def update_story_name (gen : GenClient) (s : StoryM) : StoryM × Option PyErr :=
  if s.name = "New Story" then
    match s.images.getLast? with
    | none => (s, some PyErr.indexError)
    | some _ =>
      match gen.imageToTitle s with
      | Except.error e => (s, some e)
      | Except.ok title => ({ s with name := title }, none)
  else (s, none)

/-- `Story.update_from_image_operations`: parse the whole batch, execute
it, then auto-title. -/
def update_from_image_operations (dmp : List Char → List Char → List (DiffOp × List Char))
    (gen : GenClient) (pil : List Char → Bool) (s : StoryM) (ops : List OpDict) :
    StoryM × Option PyErr :=
  match parseAllOps ops with
  | Except.error e => (s, some e)
  | Except.ok parsed =>
    match execute_image_operations dmp gen pil s parsed with
    | (s', some e) => (s', some e)
    | (s', none) => update_story_name gen s'

/-- `Story.update_images_by_text` (direct text edit): set the raw text,
clear audio, synthesize an image from the text (image→image when a prior
image exists, text→image otherwise), append it, auto-title. -/
def update_images_by_text (gen : GenClient) (pil : List Char → Bool) (s : StoryM)
    (new_text : List Char) : StoryM × Option PyErr :=
  let s1 := { s.set_raw_text new_text with audio := none }
  let gimg : Except PyErr String :=
    if s1.images.isEmpty then gen.storyToImage s1 else gen.modifyImage s1
  match gimg with
  | Except.error e => (s1, some e)
  | Except.ok img =>
    match s1.upload_image pil img with
    | (s2, some e) => (s2, some e)
    | (s2, none) => update_story_name gen s2

/-- Python truthiness of the `audio` column (`None` and `""` are falsy). -/
def audioTruthy : Option String → Bool
  | none => false
  | some u => !u.isEmpty

/-- `Story.generate_audio`: idempotent by content — if audio exists
(Python truthiness) and the requested raw text matches the current raw
text, return unchanged; otherwise set the raw text, bump the audio
ordinal, synthesize, and point `audio` at the new ordinal's url.  On a
synthesis failure the text/ordinal mutations remain but `audio` does
not change. -/
def generate_audio (tts : List Char → Except PyErr (List Char)) (s : StoryM)
    (text : List Char) : StoryM × Option PyErr :=
  if audioTruthy s.audio = true ∧ get_raw_text text = get_raw_text s.text then
    (s, none)
  else
    let s2 := { s.set_raw_text (get_raw_text text) with
                audio_counter := s.audio_counter + 1 }
    let audio_id := "aud_" ++ s.storyId ++ "_" ++ toString (s.audio_counter + 1)
    match tts (get_raw_text text) with
    | Except.error e => (s2, some e)
    | Except.ok _ =>
      ({ s2 with audio := some ("http://localhost:8080/audio/" ++ s.userId ++ "/"
          ++ s.storyId ++ "/" ++ audio_id) }, none)

/-- A `users` row (fields relevant to the story engine). -/
structure UserM where
  userId : String
  story_counter : Nat := 0
deriving DecidableEq, Repr

/-- `User.create_story`: bump the story ordinal and construct a story
with the column defaults (state `completed`, empty text, counters 0,
`regenerateImage = True`). -/
def UserM.create_story (u : UserM) (story_name : String) : UserM × StoryM :=
  let u' := { u with story_counter := u.story_counter + 1 }
  let storyId := "s_" ++ u.userId ++ "_" ++ toString u'.story_counter
  (u', { storyId := storyId, name := story_name, userId := u.userId })

/-- The outcome of one mutating HTTP request: the final persisted story,
the sequence of story states committed to the database in order, and the
error surfaced to the caller (the `HTTPException`), if any. -/
structure RequestResult where
  story : StoryM
  persistedStates : List StoryState
  httpError : Option PyErr
deriving Repr

/-- The state-machine wrapper shared verbatim by the three mutating
handlers in `items.py` with a bare `except:` (`updateImagesByText`,
`updateTextByImages`, `generateAudio`): commit `pending`, run the
operation in a `try`, then commit `completed` on success or `error` on
any exception (which is re-raised as an HTTP error).  The fourth
mutating handler, `uploadImage`, catches only `ValueError` and is
modelled separately by `runUploadImage`. -/
def runMutatingRequest (s : StoryM) (op : StoryM → StoryM × Option PyErr) :
    RequestResult :=
  let s1 := { s with state := StoryState.pending }
  match op s1 with
  | (s2, none) =>
    let s3 := { s2 with state := StoryState.completed }
    { story := s3, persistedStates := [s1.state, s3.state], httpError := none }
  | (s2, some e) =>
    let s3 := { s2 with state := StoryState.error }
    { story := s3, persistedStates := [s1.state, s3.state], httpError := some e }

/-- The `/items/updateTextByImages` handler around the story aggregate
(achievement bookkeeping happens after success and is modelled
separately). -/
def runUpdateTextByImages (dmp : List Char → List Char → List (DiffOp × List Char))
    (gen : GenClient) (pil : List Char → Bool) (s : StoryM) (ops : List OpDict) :
    RequestResult :=
  runMutatingRequest s (fun s' => update_from_image_operations dmp gen pil s' ops)

/-- The `/items/uploadImage` handler: commit `pending`, run
`Story.upload_image` in a `try` that catches **only `ValueError`**
(committing `error` and raising HTTP 400), then commit `completed` on
success.  A non-`ValueError` exception (e.g. PIL's
`UnidentifiedImageError` on an undecodable jpeg) propagates out of the
route: the session is closed without a further commit, its uncommitted
mutations are discarded, and the story stays at the already committed
`pending` state while the caller sees a generic server error. -/
def runUploadImage (pil : List Char → Bool) (s : StoryM) (payload : String) :
    RequestResult :=
  let s1 := { s with state := StoryState.pending }
  match s1.upload_image pil payload with
  | (s2, none) =>
    let s3 := { s2 with state := StoryState.completed }
    { story := s3, persistedStates := [s1.state, s3.state], httpError := none }
  | (s2, some e) =>
    if isValueError e = true then
      let s3 := { s2 with state := StoryState.error }
      { story := s3, persistedStates := [s1.state, s3.state], httpError := some e }
    else
      { story := s1, persistedStates := [s1.state], httpError := some e }

/-- A generative client whose calls all fail; used to instantiate
oracle-parametric theorems on paths where no oracle is reached. -/
def genClientStub : GenClient where
  imageToStory := fun _ => Except.error PyErr.externalServiceFailure
  modifyImage := fun _ => Except.error PyErr.externalServiceFailure
  sketchOnImage := fun _ => Except.error PyErr.externalServiceFailure
  imageToTitle := fun _ => Except.error PyErr.externalServiceFailure
  storyToImage := fun _ => Except.error PyErr.externalServiceFailure

/-- A concrete freshly created story (the column defaults). -/
def story0 : StoryM := { storyId := "s_id_u_1", name := "New Story", userId := "id_u" }

/-- C3 (amended): a freshly created story starts in state `completed`,
and every mutating request commits `pending` first.  The three handlers
with a bare `except:` (text edit, image-operation batch, audio
generation) then end in exactly `completed` (success) or `error` (any
exception).  The image-upload handler, however, catches only
`ValueError`: it ends in `completed` on success and `error` on a
`ValueError`, but a non-`ValueError` exception during the upload (PIL
failing to re-encode an undecodable jpeg) propagates and leaves the
story committed `pending` — it reaches neither terminal state. -/
theorem story_state_lifecycle :
    (∀ (u : UserM) (story_name : String),
      (u.create_story story_name).2.state = StoryState.completed) ∧
    (∀ (s : StoryM) (op : StoryM → StoryM × Option PyErr),
      (runMutatingRequest s op).persistedStates =
        [StoryState.pending,
          if (op { s with state := StoryState.pending }).2.isSome
          then StoryState.error else StoryState.completed] ∧
      (runMutatingRequest s op).story.state =
        (if (op { s with state := StoryState.pending }).2.isSome
          then StoryState.error else StoryState.completed) ∧
      (runMutatingRequest s op).httpError = (op { s with state := StoryState.pending }).2) ∧
    (∀ (pil : List Char → Bool) (s : StoryM) (payload : String),
      (runUploadImage pil s payload).persistedStates =
        (match (StoryM.upload_image pil { s with state := StoryState.pending } payload).2 with
        | none => [StoryState.pending, StoryState.completed]
        | some e =>
          if isValueError e = true then [StoryState.pending, StoryState.error]
          else [StoryState.pending]) ∧
      (runUploadImage pil s payload).story =
        (match StoryM.upload_image pil { s with state := StoryState.pending } payload with
        | (s2, none) => { s2 with state := StoryState.completed }
        | (s2, some e) =>
          if isValueError e = true then { s2 with state := StoryState.error }
          else { s with state := StoryState.pending }) ∧
      (runUploadImage pil s payload).httpError =
        (StoryM.upload_image pil { s with state := StoryState.pending } payload).2) := by
  refine ⟨fun u n => rfl, fun s op => ?_, fun pil s payload => ?_⟩
  · unfold runMutatingRequest
    rcases h : op { s with state := StoryState.pending } with ⟨s2, e⟩
    cases e <;> simp [h]
  · unfold runUploadImage
    rcases h : StoryM.upload_image pil { s with state := StoryState.pending } payload
      with ⟨s2, e⟩
    cases e with
    | none => simp [h]
    | some e' =>
      by_cases hv : isValueError e' = true
      · simp [h, hv]
      · simp [h, hv]

/-- C3 counterexample: `POST /items/uploadImage` with
`imageFile = "data:image/jpeg;base64,AAAA"` against a `completed` story.
The payload passes the regex, the extension check and `b64decode`
(`"AAAA"` decodes to three zero bytes), then `PIL_Image.open` raises
`UnidentifiedImageError` — an `OSError`, which the handler's
`except ValueError` does not catch (the oracle `fun _ => false` records
that PIL cannot identify those bytes).  The story ends committed
`pending`: it reaches neither `completed` nor `error`. -/
theorem story_state_lifecycle_cex :
    story0.state = StoryState.completed ∧
    (runUploadImage (fun _ => false) story0 "data:image/jpeg;base64,AAAA").story.state =
      StoryState.pending ∧
    (runUploadImage (fun _ => false) story0 "data:image/jpeg;base64,AAAA").persistedStates =
      [StoryState.pending] ∧
    (runUploadImage (fun _ => false) story0 "data:image/jpeg;base64,AAAA").httpError =
      some PyErr.osError := by
  refine ⟨rfl, rfl, rfl, rfl⟩

/-- C4 (amended): when parsing or validation of an image-operation batch
fails, the error is surfaced to the caller and no story *content* is
mutated (no image appended, no counter, text, audio or name change) —
but the story's state, committed to `pending` before parsing, is
committed to `error`, not restored to its pre-request value. -/
theorem parse_failure_no_content_mutation
    (dmp : List Char → List Char → List (DiffOp × List Char)) (gen : GenClient)
    (pil : List Char → Bool) (s : StoryM) (ops : List OpDict) (e : PyErr)
    (hparse : parseAllOps ops = Except.error e) :
    runUpdateTextByImages dmp gen pil s ops =
      { story := { s with state := StoryState.error },
        persistedStates := [StoryState.pending, StoryState.error],
        httpError := some e } := by
  unfold runUpdateTextByImages runMutatingRequest update_from_image_operations
  rw [hparse]

/-- C4 counterexample: a batch with the unknown discriminator `"bogus"`
fails to parse, and the request leaves a previously `completed` story in
state `error` — the state after the request differs from the state
before it. -/
theorem parse_failure_state_cex :
    story0.state = StoryState.completed ∧
    (runUpdateTextByImages (fun _ _ => []) genClientStub (fun _ => false) story0
        [{ type := "bogus" }]).story.state = StoryState.error ∧
    (runUpdateTextByImages (fun _ _ => []) genClientStub (fun _ => false) story0
        [{ type := "bogus" }]).story.state ≠ story0.state := by
  exact ⟨rfl, rfl, by decide⟩

/-- Witness for `parse_failure_no_content_mutation` on the batch
`[{type: "bogus"}]`. -/
theorem parse_failure_no_content_mutation_witness :
    parseAllOps [{ type := "bogus" }] =
      Except.error (PyErr.unknownOperation "bogus") ∧
    runUpdateTextByImages (fun _ _ => []) genClientStub (fun _ => false) story0
        [{ type := "bogus" }] =
      { story := { story0 with state := StoryState.error },
        persistedStates := [StoryState.pending, StoryState.error],
        httpError := some (PyErr.unknownOperation "bogus") } :=
  ⟨rfl, parse_failure_no_content_mutation (fun _ _ => []) genClientStub (fun _ => false)
    story0 [{ type := "bogus" }] (PyErr.unknownOperation "bogus") rfl⟩

/-- The ordinal invariant of a story's image history: the ordinals
embedded in the image ids are strictly increasing in append order, and
all are at most the story's image counter. -/
def ordinalsOK (s : StoryM) : Prop :=
  List.Pairwise (· < ·) (s.images.map ImageM.ordinal) ∧
  ∀ i ∈ s.images, i.ordinal ≤ s.image_counter

/-- A lifetime of upload attempts against one story, successful or not
(a failed upload keeps its partial mutation — the consumed ordinal). -/
def uploadSeq (pil : List Char → Bool) (s : StoryM) : List String → StoryM
  | [] => s
  | p :: rest => uploadSeq pil (s.upload_image pil p).1 rest

/-- Branch-by-branch description of `Story.upload_image`: the counter is
consumed unconditionally; on success exactly one record with ordinal
`counter + 1` is appended; on failure the history is untouched. -/
theorem upload_image_spec (pil : List Char → Bool) (s : StoryM) (payload : String) :
    (s.upload_image pil payload).1.image_counter = s.image_counter + 1 ∧
    ((s.upload_image pil payload).2 = none →
      (s.upload_image pil payload).1.images =
        s.images ++ [{ imageId := "img_" ++ s.storyId ++ "_" ++ toString (s.image_counter + 1),
                       url := "http://localhost:8080/images/" ++ s.userId ++ "/" ++ s.storyId
                         ++ "/" ++ ("img_" ++ s.storyId ++ "_" ++ toString (s.image_counter + 1)),
                       ordinal := s.image_counter + 1 }]) ∧
    ((s.upload_image pil payload).2 ≠ none → (s.upload_image pil payload).1.images = s.images) := by
  unfold StoryM.upload_image
  cases hp : parseDataURI payload.toList with
  | none => simp
  | some pr =>
    obtain ⟨ext, data⟩ := pr
    dsimp only
    split
    · split
      · split <;> simp
      · simp
    · simp

theorem upload_preserves_ordinalsOK {s : StoryM} (h : ordinalsOK s)
    (pil : List Char → Bool) (payload : String) :
    ordinalsOK (s.upload_image pil payload).1 := by
  obtain ⟨hcnt, hok, hfail⟩ := upload_image_spec pil s payload
  cases he : (s.upload_image pil payload).2 with
  | none =>
    have himg := hok he
    constructor
    · rw [himg, List.map_append, List.pairwise_append]
      refine ⟨h.1, by simp, ?_⟩
      intro a ha b hb
      simp only [List.map_cons, List.map_nil, List.mem_singleton] at hb
      subst hb
      obtain ⟨i, hi, rfl⟩ := List.mem_map.mp ha
      exact Nat.lt_succ_of_le (h.2 i hi)
    · intro i hi
      rw [himg] at hi
      rcases List.mem_append.mp hi with hi | hi
      · rw [hcnt]
        exact Nat.le_succ_of_le (h.2 i hi)
      · simp only [List.mem_singleton] at hi
        subst hi
        rw [hcnt]
  | some e =>
    have himg := hfail (by rw [he]; exact Option.some_ne_none e)
    refine ⟨by rw [himg]; exact h.1, ?_⟩
    intro i hi
    rw [himg] at hi
    rw [hcnt]
    exact Nat.le_succ_of_le (h.2 i hi)

theorem uploadSeq_preserves_ordinalsOK (pil : List Char → Bool) :
    ∀ (payloads : List String) {s : StoryM}, ordinalsOK s →
      ordinalsOK (uploadSeq pil s payloads) := by
  intro payloads
  induction payloads with
  | nil => intro s h; exact h
  | cons p rest ih =>
    intro s h
    exact ih (upload_preserves_ordinalsOK h pil p)

/-- C8: image ordinals in one story are strictly increasing and never
reused.  Every upload attempt consumes its ordinal (even when it fails
partway), a successful append carries ordinal `counter + 1`, strictly
larger than every ordinal already in the history, and the invariant is
preserved over any lifetime of upload attempts. -/
theorem image_ordinals_monotonic (pil : List Char → Bool) (s : StoryM) (payload : String)
    (h : ordinalsOK s) :
    (s.upload_image pil payload).1.image_counter = s.image_counter + 1 ∧
    ordinalsOK (s.upload_image pil payload).1 ∧
    ((s.upload_image pil payload).2 = none →
      (s.upload_image pil payload).1.images.map ImageM.ordinal =
        s.images.map ImageM.ordinal ++ [s.image_counter + 1] ∧
      ∀ i ∈ s.images, i.ordinal < s.image_counter + 1) ∧
    ((s.upload_image pil payload).2 ≠ none → (s.upload_image pil payload).1.images = s.images) ∧
    (∀ payloads : List String, ordinalsOK (uploadSeq pil s payloads)) := by
  obtain ⟨hcnt, hok, hfail⟩ := upload_image_spec pil s payload
  refine ⟨hcnt, upload_preserves_ordinalsOK h pil payload, ?_, hfail,
    fun payloads => uploadSeq_preserves_ordinalsOK pil payloads h⟩
  intro he
  refine ⟨by rw [hok he]; simp, fun i hi => Nat.lt_succ_of_le (h.2 i hi)⟩

/-- Witness for `image_ordinals_monotonic` at a fresh story and a valid
PNG data-URI payload. -/
theorem image_ordinals_monotonic_witness :
    ordinalsOK story0 ∧
    (story0.upload_image (fun _ => false) "data:image/png;base64,AAAA").1.image_counter =
      story0.image_counter + 1 :=
  have h0 : ordinalsOK story0 := ⟨List.Pairwise.nil, by intro i hi; cases hi⟩
  ⟨h0, (image_ordinals_monotonic (fun _ => false) story0 "data:image/png;base64,AAAA" h0).1⟩

/-- C9: audio generation is idempotent by content.  If the story already
has audio (truthy) and the requested text's raw form equals the current
raw text, `generate_audio` returns the story unchanged with no error —
independently of the speech oracle, so nothing is synthesized and no
ordinal is consumed.  Otherwise it stores the raw text, consumes a new
audio ordinal, and on successful synthesis points the audio reference at
the new ordinal's url (on failure the reference is unchanged and the
error propagates). -/
theorem generate_audio_idempotent_by_content
    (tts : List Char → Except PyErr (List Char)) (s : StoryM) (text : List Char) :
    (audioTruthy s.audio = true → get_raw_text text = get_raw_text s.text →
      generate_audio tts s text = (s, none)) ∧
    (¬ (audioTruthy s.audio = true ∧ get_raw_text text = get_raw_text s.text) →
      (generate_audio tts s text).1.text = get_raw_text (get_raw_text text) ∧
      (generate_audio tts s text).1.audio_counter = s.audio_counter + 1 ∧
      (∀ w, tts (get_raw_text text) = Except.ok w →
        (generate_audio tts s text).1.audio =
          some ("http://localhost:8080/audio/" ++ s.userId ++ "/" ++ s.storyId ++ "/"
            ++ ("aud_" ++ s.storyId ++ "_" ++ toString (s.audio_counter + 1))) ∧
        (generate_audio tts s text).2 = none) ∧
      (∀ e, tts (get_raw_text text) = Except.error e →
        (generate_audio tts s text).1.audio = s.audio ∧
        (generate_audio tts s text).2 = some e)) := by
  constructor
  · intro h1 h2
    unfold generate_audio
    rw [if_pos ⟨h1, h2⟩]
  · intro hne
    unfold generate_audio
    rw [if_neg hne]
    dsimp only
    cases htts : tts (get_raw_text text) with
    | error e' =>
      refine ⟨rfl, rfl, ?_, ?_⟩
      · intro w hw
        exact Except.noConfusion hw
      · intro e he
        injection he with he'
        subst he'
        exact ⟨rfl, rfl⟩
    | ok w =>
      refine ⟨rfl, rfl, ?_, ?_⟩
      · intro w' _
        exact ⟨rfl, rfl⟩
      · intro e he
        exact Except.noConfusion he

/-- A story that already carries an audio reference. -/
def storyAudio : StoryM := { story0 with audio := some "u" }

/-- Witness for `generate_audio_idempotent_by_content`: a story with
audio and unchanged raw text is returned untouched even though the
speech oracle always fails. -/
theorem generate_audio_idempotent_by_content_witness :
    audioTruthy storyAudio.audio = true ∧
    generate_audio (fun _ => Except.error PyErr.externalServiceFailure) storyAudio [] =
      (storyAudio, none) :=
  ⟨by decide,
    (generate_audio_idempotent_by_content
      (fun _ => Except.error PyErr.externalServiceFailure) storyAudio []).1
      (by decide) rfl⟩

/-! ## Achievement engine (`User.update_achievement`, `User.get_achievements`)

The achievement catalog is loaded from an external JSON file (not part of
the source tree); it is a parameter.  The per-user `user_achievements`
rows are an association list keyed by `achievementId`.  Times are `Nat`
seconds (the `timedelta(minutes=1)` gate becomes `≥ 60`). -/

/-- An `achievements` catalog row (fields the engine reads). -/
structure AchievementDef where
  achievementId : String
  title : String := ""
  description : String := ""
  targetValue : Nat := 0
deriving DecidableEq, Repr

/-- A `user_achievements` row for one user. -/
structure UserAchievementM where
  state : AchievementState := AchievementState.locked
  currentValue : Nat := 0
  completedAt : Option Nat := none
  lastUpdate : Option Nat := none
deriving DecidableEq, Repr

/-- One user's `user_achievements` rows, keyed by achievement id. -/
abbrev AchStore := List (String × UserAchievementM)

/-- Key lookup in the association list. -/
def lookupUA (id : String) : AchStore → Option UserAchievementM
  | [] => none
  | (k, v) :: rest => if k == id then some v else lookupUA id rest

/-- Remove every row with the given key. -/
def eraseKey (id : String) : AchStore → AchStore
  | [] => []
  | (k, v) :: rest => if k == id then eraseKey id rest else (k, v) :: eraseKey id rest

/-- The `select(UserAchievement).where(userId, achievementId)` lookup. -/
def getUA (st : AchStore) (id : String) : Option UserAchievementM := lookupUA id st

/-- Persisting a (new or mutated) row: later reads of `id` see `u`. -/
def setUA (st : AchStore) (id : String) (u : UserAchievementM) : AchStore :=
  (id, u) :: eraseKey id st

/-- `select(Achievement).where(achievementId)` against the catalog. -/
def catHas (catalog : List AchievementDef) (id : String) : Bool :=
  catalog.any (fun d => d.achievementId == id)

/-- The inner `get_achievement` helper of `User.update_achievement`:
`ValueError` when the catalog lacks the id, otherwise the user's row (or
`none`). -/
def fetchUA (catalog : List AchievementDef) (st : AchStore) (id : String) :
    Except PyErr (Option UserAchievementM) :=
  if catHas catalog id then Except.ok (getUA st id)
  else Except.error (PyErr.valueError ("Achievement " ++ id ++ " not found"))

/-- The count for achievement "2":
`len(story.get_raw_text().replace("<br>", "").strip().replace(" ", ""))`. -/
def story_word_count (s : StoryM) : Nat :=
  (removeAll [' '] (pyStrip (removeAll ['<', 'b', 'r', '>'] (get_raw_text s.text)))).length

/-- `User.update_achievement`: the four fixed rules, dispatched on the
achievement id.  Returns the updated store, or the exception the Python
code would raise (in which case nothing is committed). -/
def update_achievement (achievementId : String) (catalog : List AchievementDef)
    (st : AchStore) (now : Nat) (story : Option StoryM) : Except PyErr AchStore :=
  match fetchUA catalog st achievementId with
  | Except.error e => Except.error e
  | Except.ok user_ach =>
    match achievementId with
    | "1" =>
      (match user_ach with
      | none =>
        Except.ok (setUA st "1"
          { state := AchievementState.in_progress, currentValue := 1,
            lastUpdate := some now })
      | some u =>
        let u' := { u with currentValue := u.currentValue + 1, lastUpdate := some now }
        if u'.currentValue ≥ 10 then
          let st1 := setUA st "1"
            { u' with state := AchievementState.completed, completedAt := some now }
          match fetchUA catalog st "4" with
          | Except.error e => Except.error e
          | Except.ok none => Except.ok st1
          | Except.ok (some u4) =>
            if u4.currentValue ≥ 7 then
              Except.ok (setUA st1 "4"
                { u4 with state := AchievementState.completed, completedAt := some now })
            else Except.ok st1
        else Except.ok (setUA st "1" u'))
    | "2" =>
      (match story with
      | none => Except.error PyErr.attributeError
      | some sty =>
        let number_words := story_word_count sty
        match user_ach with
        | none =>
          Except.ok (setUA st "2"
            { state := AchievementState.in_progress, currentValue := number_words,
              lastUpdate := some now })
        | some u =>
          let u' := { u with currentValue := max u.currentValue number_words,
                             lastUpdate := some now }
          if u'.currentValue ≥ 1000 then
            Except.ok (setUA st "2"
              { u' with state := AchievementState.completed, completedAt := some now })
          else Except.ok (setUA st "2" u'))
    | "3" =>
      (match user_ach with
      | none =>
        Except.ok (setUA st "3"
          { state := AchievementState.in_progress, currentValue := 1,
            lastUpdate := some now })
      | some u =>
        let u' := { u with currentValue := u.currentValue + 1, lastUpdate := some now }
        if u'.currentValue ≥ 25 then
          Except.ok (setUA st "3"
            { u' with state := AchievementState.completed, completedAt := some now })
        else Except.ok (setUA st "3" u'))
    | "4" =>
      (match user_ach with
      | none =>
        Except.ok (setUA st "4"
          { state := AchievementState.in_progress, currentValue := 1,
            lastUpdate := some now })
      | some u =>
        match u.lastUpdate with
        | none => Except.error PyErr.attributeError
        | some last =>
          let u' := if now - last ≥ 60 then
              { u with currentValue := u.currentValue + 1, lastUpdate := some now }
            else u
          if u'.currentValue ≥ 7 then
            match fetchUA catalog st "1" with
            | Except.error e => Except.error e
            | Except.ok none => Except.error PyErr.attributeError
            | Except.ok (some u1) =>
              if u1.state = AchievementState.completed then
                Except.ok (setUA st "4"
                  { u' with state := AchievementState.completed, completedAt := some now })
              else Except.ok (setUA st "4" u')
          else Except.ok (setUA st "4" u'))
    | _ => Except.ok st

/-- One row of the `get_achievements` response. -/
structure AchievementEntry where
  achievementId : String
  title : String
  description : String
  state : AchievementState
  currentValue : Nat
  targetValue : Nat
  completedAt : Option Nat
deriving DecidableEq, Repr

/-- `User.get_achievements`: project every catalog entry through the
user's rows, synthesizing a virtual `locked, 0` entry when no row
exists.  The store is returned untouched — the method never calls
`db.add` or `commit`. -/
def get_achievements (catalog : List AchievementDef) (st : AchStore) :
    List AchievementEntry × AchStore :=
  (catalog.map fun base_ach =>
    match getUA st base_ach.achievementId with
    | some user_ach =>
      { achievementId := base_ach.achievementId, title := base_ach.title,
        description := base_ach.description, state := user_ach.state,
        currentValue := user_ach.currentValue, targetValue := base_ach.targetValue,
        completedAt := user_ach.completedAt }
    | none =>
      { achievementId := base_ach.achievementId, title := base_ach.title,
        description := base_ach.description, state := AchievementState.locked,
        currentValue := 0, targetValue := base_ach.targetValue,
        completedAt := none },
   st)

/-- The four catalog rows the deployed JSON provides. -/
def catalogDefault : List AchievementDef :=
  [{ achievementId := "1", targetValue := 10 },
   { achievementId := "2", targetValue := 1000 },
   { achievementId := "3", targetValue := 25 },
   { achievementId := "4", targetValue := 7 }]

/-- `n` story creations for a fresh user: the handler
`create_new_story` calls `update_achievement("1")` once per creation. -/
def createStories : Nat → Except PyErr AchStore
  | 0 => Except.ok []
  | n + 1 =>
    match createStories n with
    | Except.error e => Except.error e
    | Except.ok st => update_achievement "1" catalogDefault st n none

/-- The `(state, currentValue)` of one achievement after a run. -/
def achState (r : Except PyErr AchStore) (id : String) :
    Option (AchievementState × Nat) :=
  match r with
  | Except.error _ => none
  | Except.ok st => (getUA st id).map (fun u => (u.state, u.currentValue))

theorem lookupUA_eraseKey_ne (id id' : String) (h : id' ≠ id) :
    ∀ st : AchStore, lookupUA id' (eraseKey id st) = lookupUA id' st := by
  intro st
  induction st with
  | nil => rfl
  | cons p rest ih =>
    obtain ⟨k, v⟩ := p
    by_cases hk : (k == id) = true
    · have hk' : k = id := beq_iff_eq.mp hk
      have hne : (k == id') = false := by
        rw [hk']
        exact beq_eq_false_iff_ne.mpr (Ne.symm h)
      rw [eraseKey, if_pos hk, ih, lookupUA, if_neg (by simp [hne])]
    · rw [eraseKey, if_neg hk, lookupUA, lookupUA]
      by_cases hki : (k == id') = true
      · rw [if_pos hki, if_pos hki]
      · rw [if_neg hki, if_neg hki, ih]

theorem getUA_setUA_same (st : AchStore) (id : String) (u : UserAchievementM) :
    getUA (setUA st id u) id = some u := by
  rw [getUA, setUA, lookupUA, if_pos (beq_iff_eq.mpr rfl)]

theorem getUA_setUA_other (st : AchStore) (id id' : String) (u : UserAchievementM)
    (h : id' ≠ id) : getUA (setUA st id u) id' = getUA st id' := by
  have hne : (id == id') = false := beq_eq_false_iff_ne.mpr (Ne.symm h)
  rw [getUA, setUA, lookupUA, if_neg (by simp [hne]), lookupUA_eraseKey_ne id id' h st, getUA]

/-- C5: each story creation advances achievement "1" by exactly one —
a missing row is created at `currentValue = 1, in_progress`, an existing
row is incremented (staying below the threshold it keeps its state) —
and for a fresh user nine creations leave `(in_progress, 9)` while the
tenth yields `(completed, 10)`. -/
theorem achievement1_story_creation :
    (∀ (catalog : List AchievementDef) (st : AchStore) (now : Nat),
      catHas catalog "1" = true →
      (getUA st "1" = none →
        update_achievement "1" catalog st now none =
          Except.ok (setUA st "1" { state := AchievementState.in_progress,
                                    currentValue := 1, lastUpdate := some now })) ∧
      (∀ u, getUA st "1" = some u → u.currentValue + 1 < 10 →
        update_achievement "1" catalog st now none =
          Except.ok (setUA st "1" { u with currentValue := u.currentValue + 1,
                                           lastUpdate := some now }))) ∧
    achState (createStories 9) "1" = some (AchievementState.in_progress, 9) ∧
    achState (createStories 10) "1" = some (AchievementState.completed, 10) := by
  refine ⟨?_, by decide, by decide⟩
  intro catalog st now h1
  constructor
  · intro hnone
    have hf : fetchUA catalog st "1" = Except.ok none := by
      rw [fetchUA, if_pos (by simp [h1]), hnone]
    unfold update_achievement
    rw [hf]
    rfl
  · intro u hu hlt
    have hf : fetchUA catalog st "1" = Except.ok (some u) := by
      rw [fetchUA, if_pos (by simp [h1]), hu]
    unfold update_achievement
    rw [hf]
    dsimp only
    rw [if_neg (by omega)]
    rfl

/-- Witness for `achievement1_story_creation`: the first creation event
for a fresh user. -/
theorem achievement1_story_creation_witness :
    catHas catalogDefault "1" = true ∧
    update_achievement "1" catalogDefault [] 0 none =
      Except.ok (setUA [] "1" { state := AchievementState.in_progress,
                                currentValue := 1, lastUpdate := some 0 }) :=
  ⟨by decide, (achievement1_story_creation.1 catalogDefault [] 0 (by decide)).1 rfl⟩

/-- C7 (amended): on a text-mutation event achievement "2" is advanced
to `max(currentValue, count)` and marked completed at `≥ 1000` — but
only on the *update* branch; the first recorded event creates the row
`in_progress` at `currentValue = count` with no completion check, even
when `count ≥ 1000`. -/
theorem achievement2_longest_story
    (catalog : List AchievementDef) (st : AchStore) (now : Nat) (sty : StoryM)
    (h2 : catHas catalog "2" = true) :
    (getUA st "2" = none →
      update_achievement "2" catalog st now (some sty) =
        Except.ok (setUA st "2" { state := AchievementState.in_progress,
                                  currentValue := story_word_count sty,
                                  lastUpdate := some now })) ∧
    (∀ u, getUA st "2" = some u →
      update_achievement "2" catalog st now (some sty) =
        Except.ok (setUA st "2"
          (if max u.currentValue (story_word_count sty) ≥ 1000 then
            { u with currentValue := max u.currentValue (story_word_count sty),
                     lastUpdate := some now, state := AchievementState.completed,
                     completedAt := some now }
          else { u with currentValue := max u.currentValue (story_word_count sty),
                        lastUpdate := some now }))) := by
  constructor
  · intro hnone
    have hf : fetchUA catalog st "2" = Except.ok none := by
      rw [fetchUA, if_pos (by simp [h2]), hnone]
    unfold update_achievement
    rw [hf]
    rfl
  · intro u hu
    have hf : fetchUA catalog st "2" = Except.ok (some u) := by
      rw [fetchUA, if_pos (by simp [h2]), hu]
    unfold update_achievement
    rw [hf]
    dsimp only
    by_cases hmax : max u.currentValue (story_word_count sty) ≥ 1000
    · rw [if_pos hmax, if_pos hmax]
      rfl
    · rw [if_neg hmax, if_neg hmax]
      rfl

/-- The story of the C7 counterexample: raw text of 1000 non-space
characters. -/
def longStory : StoryM := { story0 with text := List.replicate 1000 'a' }

/-- C7 counterexample: the *first* recorded text-mutation event for a
user, with a 1000-character story, creates achievement "2" at
`currentValue = 1000` but in state `in_progress`, not `completed` —
the creation branch has no threshold check. -/
theorem hasSub_eq_false_of_head_notin (d : Char) (p : List Char) :
    ∀ (l : List Char), (∀ x ∈ l, x ≠ d) → hasSub (d :: p) l = false := by
  intro l
  induction l with
  | nil => intro _; rfl
  | cons c rest ih =>
    intro h
    rw [hasSub_cons, Bool.or_eq_false_iff]
    refine ⟨?_, ih (fun x hx => h x (List.mem_cons_of_mem c hx))⟩
    rw [isPrefixOf_cons_cons]
    have hd : (d == c) = false :=
      beq_eq_false_iff_ne.mpr (fun he => (h c (List.mem_cons_self c rest)) he.symm)
    simp [hd]

theorem dropWhile_ws_replicate (n : Nat) :
    (List.replicate n 'a').dropWhile Char.isWhitespace = List.replicate n 'a' := by
  cases n with
  | zero => rfl
  | succ m =>
    rw [List.replicate_succ, List.dropWhile_cons]
    simp

/-- C7 counterexample: the *first* recorded text-mutation event for a
user, with a 1000-character story text, creates achievement "2" at
`currentValue = 1000` but in state `in_progress`, not `completed` —
the creation branch has no threshold check. -/
theorem achievement2_first_event_cex :
    story_word_count longStory = 1000 ∧
    achState (update_achievement "2" catalogDefault [] 0 (some longStory)) "2" =
      some (AchievementState.in_progress, 1000) ∧
    AchievementState.in_progress ≠ AchievementState.completed := by
  have hmem : ∀ d : Char, d ≠ 'a' → ∀ x ∈ List.replicate 1000 'a', x ≠ d := by
    intro d hd x hx
    rw [List.eq_of_mem_replicate hx]
    exact fun he => hd he.symm
  have hopen : hasSub openM (List.replicate 1000 'a') = false :=
    hasSub_eq_false_of_head_notin '<' ['m', 'a', 'r', 'k', '>'] _ (hmem '<' (by decide))
  have hclose : hasSub closeM (List.replicate 1000 'a') = false :=
    hasSub_eq_false_of_head_notin '<' ['/', 'm', 'a', 'r', 'k', '>'] _ (hmem '<' (by decide))
  have hraw : get_raw_text (List.replicate 1000 'a') = List.replicate 1000 'a' := by
    unfold get_raw_text
    rw [removeAll_of_hasSub_eq_false hopen, removeAll_of_hasSub_eq_false hclose]
  have hbr : removeAll ['<', 'b', 'r', '>'] (List.replicate 1000 'a') =
      List.replicate 1000 'a' :=
    removeAll_of_hasSub_eq_false
      (hasSub_eq_false_of_head_notin '<' ['b', 'r', '>'] _ (hmem '<' (by decide)))
  have hstrip : pyStrip (List.replicate 1000 'a') = List.replicate 1000 'a' := by
    unfold pyStrip
    rw [dropWhile_ws_replicate, List.reverse_replicate, dropWhile_ws_replicate,
      List.reverse_replicate]
  have hsp : removeAll [' '] (List.replicate 1000 'a') = List.replicate 1000 'a' :=
    removeAll_of_hasSub_eq_false
      (hasSub_eq_false_of_head_notin ' ' [] _ (hmem ' ' (by decide)))
  have hcount : story_word_count longStory = 1000 := by
    unfold story_word_count
    rw [show longStory.text = List.replicate 1000 'a' from rfl, hraw, hbr, hstrip, hsp]
    exact List.length_replicate 1000 'a'
  have hf : fetchUA catalogDefault [] "2" = Except.ok none := by
    rw [fetchUA, if_pos (by decide)]
    rfl
  have hupd : update_achievement "2" catalogDefault [] 0 (some longStory) =
      Except.ok (setUA [] "2" { state := AchievementState.in_progress,
                                currentValue := 1000, lastUpdate := some 0 }) := by
    unfold update_achievement
    rw [hf]
    dsimp only
    rw [hcount]
    rfl
  refine ⟨hcount, ?_, by decide⟩
  rw [hupd]
  decide

/-- Witness for `achievement2_longest_story`: first event for a fresh
user with the default (empty-text) story. -/
theorem achievement2_longest_story_witness :
    catHas catalogDefault "2" = true ∧
    update_achievement "2" catalogDefault [] 0 (some story0) =
      Except.ok (setUA [] "2" { state := AchievementState.in_progress,
                                currentValue := story_word_count story0,
                                lastUpdate := some 0 }) :=
  ⟨by decide,
    (achievement2_longest_story catalogDefault [] 0 story0 (by decide)).1 rfl⟩

theorem update_achievement_4_eq (catalog : List AchievementDef) (st : AchStore)
    (now : Nat) (story : Option StoryM) (u4 : UserAchievementM)
    (h4 : catHas catalog "4" = true) (h4r : getUA st "4" = some u4) :
    update_achievement "4" catalog st now story =
      (match u4.lastUpdate with
      | none => Except.error PyErr.attributeError
      | some last =>
        let u' := if now - last ≥ 60 then
            { u4 with currentValue := u4.currentValue + 1, lastUpdate := some now }
          else u4
        if u'.currentValue ≥ 7 then
          match fetchUA catalog st "1" with
          | Except.error e => Except.error e
          | Except.ok none => Except.error PyErr.attributeError
          | Except.ok (some u1) =>
            if u1.state = AchievementState.completed then
              Except.ok (setUA st "4"
                { u' with state := AchievementState.completed, completedAt := some now })
            else Except.ok (setUA st "4" u')
        else Except.ok (setUA st "4" u')) := by
  have hf4 : fetchUA catalog st "4" = Except.ok (some u4) := by
    rw [fetchUA, if_pos (by simp [h4]), h4r]
  unfold update_achievement
  rw [hf4]
  rfl

theorem update_achievement_1_eq (catalog : List AchievementDef) (st : AchStore)
    (now : Nat) (story : Option StoryM) (u1 : UserAchievementM)
    (h1 : catHas catalog "1" = true) (h1r : getUA st "1" = some u1) :
    update_achievement "1" catalog st now story =
      (let u' := { u1 with currentValue := u1.currentValue + 1, lastUpdate := some now }
      if u'.currentValue ≥ 10 then
        let st1 := setUA st "1"
          { u' with state := AchievementState.completed, completedAt := some now }
        match fetchUA catalog st "4" with
        | Except.error e => Except.error e
        | Except.ok none => Except.ok st1
        | Except.ok (some u4) =>
          if u4.currentValue ≥ 7 then
            Except.ok (setUA st1 "4"
              { u4 with state := AchievementState.completed, completedAt := some now })
          else Except.ok st1
      else Except.ok (setUA st "1" u')) := by
  have hf1 : fetchUA catalog st "1" = Except.ok (some u1) := by
    rw [fetchUA, if_pos (by simp [h1]), h1r]
  unfold update_achievement
  rw [hf1]
  rfl

/-- C6: the cross-achievement unlock dependency between "4" and "1".
(a) While a (present, non-completed) achievement "1" gates it, an update
of "4" leaves the state of "4" unchanged — it is never marked completed.
(b) If "4" reaches its threshold while "1" has no row at all, the update
raises (`user_ach_1.state` on `None`) instead of completing "4", so "4"
is still never completed while "1" is incomplete.
(c) When an update of "1" crosses its own threshold while "4" already has
`currentValue ≥ 7`, both "1" and "4" are marked completed at that
moment. -/
theorem achievement4_unlock_dependency :
    (∀ (catalog : List AchievementDef) (st : AchStore) (now : Nat)
       (story : Option StoryM) (u4 : UserAchievementM) (lu : Nat) (u1 : UserAchievementM),
      catHas catalog "4" = true → catHas catalog "1" = true →
      getUA st "4" = some u4 → u4.lastUpdate = some lu →
      getUA st "1" = some u1 → u1.state ≠ AchievementState.completed →
      ∃ st', update_achievement "4" catalog st now story = Except.ok st' ∧
        (getUA st' "4").map UserAchievementM.state = some u4.state) ∧
    (∀ (catalog : List AchievementDef) (st : AchStore) (now : Nat)
       (story : Option StoryM) (u4 : UserAchievementM) (lu : Nat),
      catHas catalog "4" = true → catHas catalog "1" = true →
      getUA st "4" = some u4 → u4.lastUpdate = some lu →
      getUA st "1" = none →
      (if now - lu ≥ 60 then u4.currentValue + 1 else u4.currentValue) ≥ 7 →
      update_achievement "4" catalog st now story = Except.error PyErr.attributeError) ∧
    (∀ (catalog : List AchievementDef) (st : AchStore) (now : Nat)
       (story : Option StoryM) (u1 u4 : UserAchievementM),
      catHas catalog "1" = true → catHas catalog "4" = true →
      getUA st "1" = some u1 → u1.currentValue + 1 ≥ 10 →
      getUA st "4" = some u4 → u4.currentValue ≥ 7 →
      ∃ st', update_achievement "1" catalog st now story = Except.ok st' ∧
        (getUA st' "4").map UserAchievementM.state = some AchievementState.completed ∧
        (getUA st' "1").map UserAchievementM.state = some AchievementState.completed) := by
  refine ⟨?_, ?_, ?_⟩
  · intro catalog st now story u4 lu u1 h4 h1c h4r hlu h1r h1ns
    have hf1 : fetchUA catalog st "1" = Except.ok (some u1) := by
      rw [fetchUA, if_pos (by simp [h1c]), h1r]
    rw [update_achievement_4_eq catalog st now story u4 h4 h4r, hlu]
    dsimp only
    by_cases hd : now - lu ≥ 60
    · rw [if_pos hd]
      dsimp only
      by_cases h7 : u4.currentValue + 1 ≥ 7
      · rw [if_pos h7, hf1]
        dsimp only
        rw [if_neg h1ns]
        exact ⟨setUA st "4" { u4 with currentValue := u4.currentValue + 1,
                                      lastUpdate := some now }, rfl,
          by rw [getUA_setUA_same]; rfl⟩
      · rw [if_neg h7]
        exact ⟨setUA st "4" { u4 with currentValue := u4.currentValue + 1,
                                      lastUpdate := some now }, rfl,
          by rw [getUA_setUA_same]; rfl⟩
    · rw [if_neg hd]
      by_cases h7 : u4.currentValue ≥ 7
      · rw [if_pos h7, hf1]
        dsimp only
        rw [if_neg h1ns]
        exact ⟨setUA st "4" u4, rfl, by rw [getUA_setUA_same]; rfl⟩
      · rw [if_neg h7]
        exact ⟨setUA st "4" u4, rfl, by rw [getUA_setUA_same]; rfl⟩
  · intro catalog st now story u4 lu h4 h1c h4r hlu h1n hth
    have hf1 : fetchUA catalog st "1" = Except.ok none := by
      rw [fetchUA, if_pos (by simp [h1c]), h1n]
    rw [update_achievement_4_eq catalog st now story u4 h4 h4r, hlu]
    dsimp only
    by_cases hd : now - lu ≥ 60
    · rw [if_pos hd] at hth ⊢
      dsimp only
      rw [if_pos hth, hf1]
    · rw [if_neg hd] at hth ⊢
      rw [if_pos hth, hf1]
  · intro catalog st now story u1 u4 h1c h4c h1r h10 h4r h7
    have hf4 : fetchUA catalog st "4" = Except.ok (some u4) := by
      rw [fetchUA, if_pos (by simp [h4c]), h4r]
    rw [update_achievement_1_eq catalog st now story u1 h1c h1r]
    dsimp only
    rw [if_pos h10, hf4]
    dsimp only
    rw [if_pos h7]
    exact ⟨setUA (setUA st "1" { u1 with state := AchievementState.completed,
                                         currentValue := u1.currentValue + 1,
                                         completedAt := some now,
                                         lastUpdate := some now }) "4"
        { u4 with state := AchievementState.completed, completedAt := some now },
      rfl,
      by rw [getUA_setUA_same]; rfl,
      by rw [getUA_setUA_other _ _ _ _ (by decide), getUA_setUA_same]; rfl⟩

/-- Concrete rows for the C6 witness. -/
def u1W : UserAchievementM :=
  { state := AchievementState.in_progress, currentValue := 1, lastUpdate := some 0 }

def u4W : UserAchievementM :=
  { state := AchievementState.in_progress, currentValue := 7, lastUpdate := some 0 }

def achStoreW : AchStore := [("1", u1W), ("4", u4W)]

/-- Witness for `achievement4_unlock_dependency`: achievement "4" at
`currentValue = 7` stays `in_progress` while achievement "1" is only
`in_progress`. -/
theorem achievement4_unlock_dependency_witness :
    ∃ st', update_achievement "4" catalogDefault achStoreW 100 none = Except.ok st' ∧
      (getUA st' "4").map UserAchievementM.state = some AchievementState.in_progress :=
  achievement4_unlock_dependency.1 catalogDefault achStoreW 100 none u4W 0 u1W
    (by decide) (by decide) rfl rfl rfl (by decide)

/-- C10: reading achievements never fails and never writes.  The store
comes back untouched, every catalog entry yields exactly one response
row, and a catalog entry without a user row is presented as a virtual
`locked, currentValue = 0` entry built from the catalog definition. -/
theorem get_achievements_virtual (catalog : List AchievementDef) (st : AchStore) :
    (get_achievements catalog st).2 = st ∧
    (get_achievements catalog st).1.length = catalog.length ∧
    ∀ d ∈ catalog, getUA st d.achievementId = none →
      ({ achievementId := d.achievementId, title := d.title, description := d.description,
         state := AchievementState.locked, currentValue := 0, targetValue := d.targetValue,
         completedAt := none } : AchievementEntry) ∈ (get_achievements catalog st).1 := by
  refine ⟨rfl, by simp [get_achievements], ?_⟩
  intro d hd hnone
  unfold get_achievements
  dsimp only
  refine List.mem_map.mpr ⟨d, hd, ?_⟩
  rw [hnone]

/-- Witness for `get_achievements_virtual`: a user with no rows at all
gets achievement "1" as a virtual locked entry. -/
theorem get_achievements_virtual_witness :
    getUA [] "1" = none ∧
    ({ achievementId := "1", title := "", description := "",
       state := AchievementState.locked, currentValue := 0, targetValue := 10,
       completedAt := none } : AchievementEntry) ∈ (get_achievements catalogDefault []).1 :=
  ⟨rfl, (get_achievements_virtual catalogDefault []).2.2
    { achievementId := "1", targetValue := 10 } (by decide) rfl⟩

end HCAB
